import Mathlib

/-!
Verification of the image-to-ASCII rendering engine of `ls3` (`ascii_art.go`).

The Go source is shallowly embedded over exact rationals: every `float64`
computation of the source is mirrored by the corresponding `ℚ` computation
(decimal literals are taken at their written value), `int(...)` conversions
are truncation toward zero, and images are total functions from integer
coordinates to RGBA pixels with 16-bit channel semantics.
-/

namespace LS3

/-- Go `int(x)` conversion of a `float64`: truncation toward zero. -/
def goInt (q : ℚ) : ℤ := if q < 0 then ⌈q⌉ else ⌊q⌋

/-- An RGBA pixel as returned by Go's `img.At(x,y).RGBA()`:
channels in 16-bit range `0 .. 65535`. -/
structure Pixel where
  r : ℚ
  g : ℚ
  b : ℚ
  a : ℚ
deriving DecidableEq

/-- A decoded image: dimensions plus a total pixel accessor (`img.At`).
The engine only ever evaluates `pixel` at in-bounds coordinates. -/
structure Img where
  width : ℕ
  height : ℕ
  pixel : ℤ → ℤ → Pixel

/-- A uniformly colored image. -/
def constImg (p : Pixel) (w h : ℕ) : Img := ⟨w, h, fun _ _ => p⟩

/-- The byte sequence of the Go string constant
`asciiChars = "█@#%*+=~-:;,. "` — the glyph `█` occupies three UTF-8
bytes (`0xE2 0x96 0x88`), so `len(asciiChars) = 16`. -/
def asciiCharsBytes : List ℕ :=
  [0xE2, 0x96, 0x88, 64, 35, 37, 42, 43, 61, 126, 45, 58, 59, 44, 46, 32]

/-- The code points of the runes of `asciiChars`: the declared
darkest-to-lightest tone ramp (14 glyphs, first one `█` = U+2588). -/
def rampGlyphs : List ℕ :=
  [0x2588, 64, 35, 37, 42, 43, 61, 126, 45, 58, 59, 44, 46, 32]

/-- The literal constant `2.718281828459045` used by `enhanceContrast`. -/
def eConst : ℚ := 2718281828459045 / 1000000000000000

/-- `enhanceContrast` exactly as written in the source:
`1.0 / (1.0 + (2.718281828459045 * (-steepness * (intensity - midpoint))))`.
Note the `*` between the constant and the exponent expression. -/
def enhanceContrast (intensity : ℚ) : ℚ :=
  let steepness : ℚ := 6
  let midpoint : ℚ := 1/2
  1 / (1 + (eConst * (-steepness * (intensity - midpoint))))

/-- The logistic-sigmoid contrast curve the spec (and the comment inside
`enhanceContrast`) describe: `1 / (1 + e^(-steepness*(x - 0.5)))` with
`steepness = 6`. Stated over `ℝ` with the genuine exponential. -/
noncomputable def specSigmoid (x : ℝ) : ℝ :=
  1 / (1 + Real.exp (-(6:ℝ) * (x - 1/2)))

/-- Alpha compositing over white followed by the perceptual grayscale of
`samplePixelArea` / `calculateEdgeEnhancement`:
`c' = uint32(c*alpha + 65535*(1-alpha))`, `gray = 0.299r' + 0.587g' + 0.114b'`.
The `uint32(...)` float-to-integer conversion truncates. -/
def compositedGray (p : Pixel) : ℚ :=
  let alpha := p.a / 65535
  let r : ℚ := (goInt (p.r * alpha + 65535 * (1 - alpha)) : ℚ)
  let g : ℚ := (goInt (p.g * alpha + 65535 * (1 - alpha)) : ℚ)
  let b : ℚ := (goInt (p.b * alpha + 65535 * (1 - alpha)) : ℚ)
  299/1000 * r + 587/1000 * g + 114/1000 * b

/-- Inverted normalized intensity of one sampled pixel
(`intensity = 1.0 - gray/65535.0` in `samplePixelArea`). -/
def pixelIntensity (p : Pixel) : ℚ := 1 - compositedGray p / 65535

/-- Non-inverted normalized luminance used by `calculateEdgeEnhancement`
(`intensity = gray / 65535.0`). -/
def pixelGrayNorm (p : Pixel) : ℚ := compositedGray p / 65535

/-- The `sampleSize` of `samplePixelArea` before the cap: starts at 2 and
becomes `int(xScale)` when `xScale > 2`. -/
def sampleSizeRaw (imgWidth newWidth : ℕ) : ℕ :=
  if 2 < (imgWidth : ℚ) / (newWidth : ℚ) then
    (goInt ((imgWidth : ℚ) / (newWidth : ℚ))).toNat
  else 2

/-- The `sampleSize` computation of `samplePixelArea`: capped at 4
("Limit for performance"). -/
def sampleSizeOf (imgWidth newWidth : ℕ) : ℕ :=
  if 4 < sampleSizeRaw imgWidth newWidth then 4 else sampleSizeRaw imgWidth newWidth

/-- The loop offsets `-(s/2) .. s/2` (Go integer division) as a list. -/
def offsets (h : ℕ) : List ℤ :=
  List.map (fun i : ℕ => (i : ℤ) - (h : ℤ)) (List.range (2*h+1))

/-- The in-bounds sample positions visited by `samplePixelArea` for one
output cell: the `(sampleSize/2*2+1)`-square window around the mapped
center `(int(x*xScale), int(y*yScale))`, restricted by the bounds check. -/
def windowPoints (x y newW newH imgW imgH : ℕ) : List (ℤ × ℤ) :=
  let xScale : ℚ := (imgW : ℚ) / (newW : ℚ)
  let yScale : ℚ := (imgH : ℚ) / (newH : ℚ)
  let s := sampleSizeOf imgW newW
  let cX : ℤ := goInt ((x : ℚ) * xScale)
  let cY : ℤ := goInt ((y : ℚ) * yScale)
  ((offsets (s/2)).flatMap (fun dy => (offsets (s/2)).map (fun dx => (cX + dx, cY + dy)))).filter
    (fun pt => decide (0 ≤ pt.1) && decide (pt.1 < (imgW : ℤ)) &&
               decide (0 ≤ pt.2) && decide (pt.2 < (imgH : ℤ)))

/-- `samplePixelArea`: average of the inverted intensities over the
in-bounds window, `0.5` when no sample is in bounds. -/
def samplePixelArea (img : Img) (x y newW newH : ℕ) : ℚ :=
  let pts := windowPoints x y newW newH img.width img.height
  if pts.isEmpty then 1/2
  else ((pts.map (fun pt => pixelIntensity (img.pixel pt.1 pt.2))).sum) / (pts.length : ℚ)

/-- Coordinate clamping of `calculateEdgeEnhancement`:
`if v < 0 then 0; if v >= n then n-1`. -/
def clampCoord (v : ℤ) (n : ℕ) : ℤ :=
  let v1 := if v < 0 then 0 else v
  if (n : ℤ) ≤ v1 then (n : ℤ) - 1 else v1

/-- `calculateEdgeEnhancement`: Sobel gradient magnitude `gx² + gy²`
clamped to `1`, over clamped-coordinate luminances around the mapped
center.  The fixed 3×3 loop of the source is unrolled; the weight of the
luminance at offset `(dy, dx)` is `sobelX[dy+1][dx+1]` for `gx` with
`sobelX = [[-1,0,1],[-2,0,2],[-1,0,1]]`, and `sobelY[dy+1][dx+1]` for
`gy` with `sobelY = [[-1,-2,-1],[0,0,0],[1,2,1]]`. -/
def calculateEdgeEnhancement (img : Img) (x y newW newH : ℕ) : ℚ :=
  let xScale : ℚ := (img.width : ℚ) / (newW : ℚ)
  let yScale : ℚ := (img.height : ℚ) / (newH : ℚ)
  let cX : ℤ := goInt ((x : ℚ) * xScale)
  let cY : ℤ := goInt ((y : ℚ) * yScale)
  let lum : ℤ → ℤ → ℚ := fun dy dx =>
    pixelGrayNorm (img.pixel (clampCoord (cX + dx) img.width) (clampCoord (cY + dy) img.height))
  let gx := lum (-1) (-1) * (-1) + lum (-1) 0 * 0 + lum (-1) 1 * 1 +
            lum 0 (-1) * (-2) + lum 0 0 * 0 + lum 0 1 * 2 +
            lum 1 (-1) * (-1) + lum 1 0 * 0 + lum 1 1 * 1
  let gy := lum (-1) (-1) * (-1) + lum (-1) 0 * (-2) + lum (-1) 1 * (-1) +
            lum 0 (-1) * 0 + lum 0 0 * 0 + lum 0 1 * 0 +
            lum 1 (-1) * 1 + lum 1 0 * 2 + lum 1 1 * 1
  let m := gx * gx + gy * gy
  if 1 < m then 1 else m

/-- The per-cell final intensity of `convertImageToASCII`:
`clamp(sample + 0.3*edge, 0, 1)` then `enhanceContrast`. -/
def cellFinalIntensity (img : Img) (x y newW newH : ℕ) : ℚ :=
  let intensity := samplePixelArea img x y newW newH
  let edge := calculateEdgeEnhancement img x y newW newH
  let f0 := intensity + edge * (3/10)
  let f1 := if 1 < f0 then 1 else f0
  let f2 := if f1 < 0 then 0 else f1
  enhanceContrast f2

/-- The quantization step of `convertImageToASCII`:
`charIndex = int(fi * (len(asciiChars)-1))` clamped into `[0, 15]`
(`len` is the byte length 16 of the ramp string). -/
def quantizeIndex (fi : ℚ) : ℕ :=
  let ci : ℤ := goInt (fi * ((16 : ℚ) - 1))
  let c1 : ℤ := if ci < 0 then 0 else ci
  let c2 : ℤ := if 16 ≤ c1 then 15 else c1
  c2.toNat

/-- The code point written for a final intensity:
`rune(asciiChars[charIndex])` promotes the single BYTE at that index. -/
def emittedChar (fi : ℚ) : ℕ := asciiCharsBytes.getD (quantizeIndex fi) 0

/-- The tone-ramp index chosen for one output cell. -/
def cellIndex (img : Img) (x y newW newH : ℕ) : ℕ :=
  quantizeIndex (cellFinalIntensity img x y newW newH)

/-- Geometry planning of `convertImageToASCII` before the minimum-1 clamp:
`adjustedAspectRatio = (w/h)/charAspectRatio` with `charAspectRatio = 0.5`;
the output is width-constrained when `adjustedAspectRatio > mw/mh`. -/
def planDimsRaw (w h mw mh : ℕ) : ℤ × ℤ :=
  if (mw : ℚ) / (mh : ℚ) < ((w : ℚ) / (h : ℚ)) / (1/2) then
    ((mw : ℤ), goInt ((mw : ℚ) / (((w : ℚ) / (h : ℚ)) / (1/2))))
  else
    (goInt ((mh : ℚ) * (((w : ℚ) / (h : ℚ)) / (1/2))), (mh : ℤ))

/-- Full geometry planning: raw dimensions clamped to a minimum of 1. -/
def planDims (w h mw mh : ℕ) : ℕ × ℕ :=
  ((if (planDimsRaw w h mw mh).1 < 1 then 1 else (planDimsRaw w h mw mh).1).toNat,
   (if (planDimsRaw w h mw mh).2 < 1 then 1 else (planDimsRaw w h mw mh).2).toNat)

/-- `isImageFile`: lowercase the filename (`strings.ToLower`; the
recognized suffixes are plain ASCII) and test the six image suffixes
(`strings.HasSuffix`).  Filenames are modelled as character lists. -/
def isImageFile (filename : List Char) : Bool :=
  let f := filename.map Char.toLower
  ".jpg".toList.isSuffixOf f || ".jpeg".toList.isSuffixOf f ||
  ".png".toList.isSuffixOf f || ".gif".toList.isSuffixOf f ||
  ".bmp".toList.isSuffixOf f || ".webp".toList.isSuffixOf f

/-- `isImageData`: magic-byte sniffing over the raw buffer
(JPEG, PNG, GIF87a/GIF89a, BMP, RIFF/WEBP signatures). -/
def isImageData (data : List ℕ) : Bool :=
  if data.length < 2 then false
  else if decide (2 ≤ data.length) && data.getD 0 0 == 0xFF && data.getD 1 0 == 0xD8 then true
  else if decide (8 ≤ data.length) && data.getD 0 0 == 0x89 && data.getD 1 0 == 0x50 &&
          data.getD 2 0 == 0x4E && data.getD 3 0 == 0x47 && data.getD 4 0 == 0x0D &&
          data.getD 5 0 == 0x0A && data.getD 6 0 == 0x1A && data.getD 7 0 == 0x0A then true
  else if decide (6 ≤ data.length) &&
          (data.take 6 == [71, 73, 70, 56, 55, 97] || data.take 6 == [71, 73, 70, 56, 57, 97]) then true
  else if decide (2 ≤ data.length) && data.getD 0 0 == 0x42 && data.getD 1 0 == 0x4D then true
  else if decide (12 ≤ data.length) && data.take 4 == [82, 73, 70, 70] &&
          (data.drop 8).take 4 == [87, 69, 66, 80] then true
  else false

/-- The classification `convertToASCIIArt` uses to decide whether the
input is plausibly an image: it rejects exactly when
`!isImageFile(filename) && !isImageData(data)`. -/
def classify (data : List ℕ) (filename : List Char) : Bool :=
  isImageFile filename || isImageData data

/-- One rendered grid row of `convertImageToASCII`. -/
def renderRow (img : Img) (y nW nH : ℕ) : String :=
  String.mk ((List.range nW).map
    (fun x => Char.ofNat (asciiCharsBytes.getD (cellIndex img x y nW nH) 0))) ++ "\n"

/-- The full text block produced on a successful conversion: the three
diagnostic header lines, the bottom border, and the character grid. -/
def renderOutput (img : Img) (format : String) (nW nH : ℕ)
    (termW termH : ℤ) (maxW maxH : ℕ) : String :=
  let w := img.width
  let h := img.height
  let header1 := "┌─ Image: " ++ toString w ++ "x" ++ toString h ++ " (" ++ format ++ ") ─┐\n"
  let header2 := "├─ ASCII: " ++ toString nW ++ "x" ++ toString nH ++
    " (term: " ++ toString termW ++ "x" ++ toString termH ++
    ", max: " ++ toString maxW ++ "x" ++ toString maxH ++ ") ─┤\n"
  let maxImgX := goInt (((nW : ℚ) - 1) * (w : ℚ) / (nW : ℚ))
  let maxImgY := goInt (((nH : ℚ) - 1) * (h : ℚ) / (nH : ℚ))
  let midImgX := goInt (((nW / 2 : ℕ) : ℚ) * (w : ℚ) / (nW : ℚ))
  let midImgY := goInt (((nH / 2 : ℕ) : ℚ) * (h : ℚ) / (nH : ℚ))
  let header3 := "├─ Sampling: X[0," ++ toString midImgX ++ "," ++ toString maxImgX ++
    "] Y[0," ++ toString midImgY ++ "," ++ toString maxImgY ++
    "] of " ++ toString w ++ "x" ++ toString h ++ " ─┤\n"
  let border := "└" ++ String.mk (List.replicate (nW + 2) '─') ++ "┘\n"
  header1 ++ header2 ++ header3 ++ border ++
    String.join ((List.range nH).map (fun y => renderRow img y nW nH))

/-- `convertImageToASCII`, parametrized by the external decode boundary
(`image.Decode`), which yields an image and a format name or an error
message.  On decode failure the error is wrapped as
`failed to decode image: <err>`. -/
def convertImageToASCII (decode : List ℕ → Except String (Img × String))
    (data : List ℕ) (maxW maxH : ℕ) (termW termH : ℤ) : Except String String :=
  match decode data with
  | .error e => .error ("failed to decode image: " ++ e)
  | .ok (img, format) =>
      let p := planDims img.width img.height maxW maxH
      .ok (renderOutput img format p.1 p.2 termW termH maxW maxH)

/-- `convertToASCIIArt`: sniff, bound the requested grid size, convert;
decode failures are surfaced as
`Error converting image to ASCII: <err>` with `false`. -/
def convertToASCIIArt (decode : List ℕ → Except String (Img × String))
    (data : List ℕ) (filename : List Char) (termW termH : ℤ) : String × Bool :=
  if !(isImageFile filename) && !(isImageData data) then ("", false)
  else
    let maxWidth0 := termW - 6
    let maxHeight0 := termH - 8
    let maxWidth1 := if maxWidth0 < 20 then 20 else maxWidth0
    let maxHeight1 := if maxHeight0 < 10 then 10 else maxHeight0
    let maxWidth2 := if 200 < termW ∧ 180 < maxWidth1 then 180 else maxWidth1
    let maxHeight2 := if 100 < termH ∧ 80 < maxHeight1 then 80 else maxHeight1
    match convertImageToASCII decode data maxWidth2.toNat maxHeight2.toNat termW termH with
    | .error e => ("Error converting image to ASCII: " ++ e, false)
    | .ok ascii => (ascii, true)

/-! ## Concrete test fixtures -/

/-- A fixed opaque black 4×4 test image. -/
def blackImg4 : Img := constImg ⟨0, 0, 0, 65535⟩ 4 4

/-- A fixed mid-gray opaque pixel. -/
def grayPixel : Pixel := ⟨30000, 30000, 30000, 65535⟩

/-- A 16×2 horizontal grayscale gradient image: column `x` has the gray
value `4369·x` in all channels, opaque — black at column 0, white at
column 15 (`4369·15 = 65535`). -/
def gradImg : Img :=
  ⟨16, 2, fun x _ => ⟨4369 * (x : ℚ), 4369 * (x : ℚ), 4369 * (x : ℚ), 65535⟩⟩

/-- A decode boundary that always fails, as with a truncated JPEG stream. -/
def decodeFailStub : List ℕ → Except String (Img × String) :=
  fun _ => Except.error "unexpected EOF"

/-! ## Geometry planning lemmas -/

lemma goInt_of_nonneg (q : ℚ) (hq : 0 ≤ q) : goInt q = ⌊q⌋ := by
  unfold goInt
  rw [if_neg (not_lt.2 hq)]

lemma planDimsRaw_bounds (w h mw mh : ℕ) (hw : 1 ≤ w) (hh : 1 ≤ h)
    (hmw : 1 ≤ mw) (hmh : 1 ≤ mh) :
    0 ≤ (planDimsRaw w h mw mh).1 ∧ (planDimsRaw w h mw mh).1 ≤ (mw : ℤ) ∧
    0 ≤ (planDimsRaw w h mw mh).2 ∧ (planDimsRaw w h mw mh).2 ≤ (mh : ℤ) := by
  have hW : (0:ℚ) < (w:ℚ) := by exact_mod_cast hw
  have hH : (0:ℚ) < (h:ℚ) := by exact_mod_cast hh
  have hMW : (0:ℚ) < (mw:ℚ) := by exact_mod_cast hmw
  have hMH : (0:ℚ) < (mh:ℚ) := by exact_mod_cast hmh
  unfold planDimsRaw
  by_cases hc : (mw:ℚ) / (mh:ℚ) < ((w:ℚ) / (h:ℚ)) / (1/2)
  · have hq0 : (0:ℚ) ≤ (mw:ℚ) / (((w:ℚ) / (h:ℚ)) / (1/2)) := by positivity
    have hqlt : (mw:ℚ) / (((w:ℚ) / (h:ℚ)) / (1/2)) < (mh:ℚ) := by
      have h1 : (mw:ℚ) / (((w:ℚ) / (h:ℚ)) / (1/2)) < (mw:ℚ) / ((mw:ℚ) / (mh:ℚ)) :=
        div_lt_div_of_pos_left hMW (by positivity) hc
      have h2 : (mw:ℚ) / ((mw:ℚ) / (mh:ℚ)) = (mh:ℚ) := by field_simp
      linarith
    rw [if_pos hc]
    refine ⟨by positivity, le_refl _, ?_, ?_⟩
    · rw [goInt_of_nonneg _ hq0]
      exact Int.floor_nonneg.2 hq0
    · rw [goInt_of_nonneg _ hq0]
      have := (Int.floor_lt (z := (mh:ℤ))).2 (by exact_mod_cast hqlt)
      omega
  · have hle : ((w:ℚ) / (h:ℚ)) / (1/2) ≤ (mw:ℚ) / (mh:ℚ) := not_lt.1 hc
    have hq0 : (0:ℚ) ≤ (mh:ℚ) * (((w:ℚ) / (h:ℚ)) / (1/2)) := by positivity
    have hqle : (mh:ℚ) * (((w:ℚ) / (h:ℚ)) / (1/2)) ≤ (mw:ℚ) := by
      have h1 : (mh:ℚ) * (((w:ℚ) / (h:ℚ)) / (1/2)) ≤ (mh:ℚ) * ((mw:ℚ) / (mh:ℚ)) :=
        mul_le_mul_of_nonneg_left hle (le_of_lt hMH)
      have h2 : (mh:ℚ) * ((mw:ℚ) / (mh:ℚ)) = (mw:ℚ) := by field_simp
      linarith
    rw [if_neg hc]
    refine ⟨?_, ?_, by positivity, le_refl _⟩
    · rw [goInt_of_nonneg _ hq0]
      exact Int.floor_nonneg.2 hq0
    · rw [goInt_of_nonneg _ hq0]
      have := Int.floor_le_floor hqle
      simpa using this

lemma planDims_bounds (w h mw mh : ℕ) (hw : 1 ≤ w) (hh : 1 ≤ h)
    (hmw : 1 ≤ mw) (hmh : 1 ≤ mh) :
    1 ≤ (planDims w h mw mh).1 ∧ (planDims w h mw mh).1 ≤ mw ∧
    1 ≤ (planDims w h mw mh).2 ∧ (planDims w h mw mh).2 ≤ mh := by
  obtain ⟨h1, h2, h3, h4⟩ := planDimsRaw_bounds w h mw mh hw hh hmw hmh
  unfold planDims
  refine ⟨?_, ?_, ?_, ?_⟩ <;> (split <;> omega)

/-- C3 — Geometry planning bounds: for any source dimensions ≥ 1 and
positive maximum bounds, the planned target grid satisfies
`1 ≤ target_width ≤ mw` and `1 ≤ target_height ≤ mh`. -/
theorem planned_dimensions_within_bounds (sw sh mw mh : ℕ)
    (hsw : 1 ≤ sw) (hsh : 1 ≤ sh) (hmw : 1 ≤ mw) (hmh : 1 ≤ mh) :
    1 ≤ (planDims sw sh mw mh).1 ∧ (planDims sw sh mw mh).1 ≤ mw ∧
    1 ≤ (planDims sw sh mw mh).2 ∧ (planDims sw sh mw mh).2 ≤ mh :=
  planDims_bounds sw sh mw mh hsw hsh hmw hmh

/-- Witness for C3 at `sw = 100, sh = 50, mw = 40, mh = 20`. -/
theorem planned_dimensions_within_bounds_witness :
    1 ≤ (planDims 100 50 40 20).1 ∧ (planDims 100 50 40 20).1 ≤ 40 ∧
    1 ≤ (planDims 100 50 40 20).2 ∧ (planDims 100 50 40 20).2 ≤ 20 :=
  planned_dimensions_within_bounds 100 50 40 20 (by decide) (by decide)
    (by decide) (by decide)

/-- C4 counterexample — the planner truncates, it does not round to the
nearest integer: at `sw = 3, sh = 1, mw = 10, mh = 10` the adjusted ratio
is `6`, the code computes `int(10/6) = 1`, while rounding `10/6` to the
nearest integer gives `2`. -/
theorem planDims_rounding_counterexample :
    (planDimsRaw 3 1 10 10).2 = 1 ∧
    round ((10 : ℚ) / (((3 : ℚ) / (1 : ℚ)) / (1/2))) = 2 ∧
    (planDimsRaw 3 1 10 10).2 ≠ round ((10 : ℚ) / (((3 : ℚ) / (1 : ℚ)) / (1/2))) := by
  have h1 : (planDimsRaw 3 1 10 10).2 = 1 := by
    norm_num [planDimsRaw, goInt]
  have h2 : round ((10 : ℚ) / (((3 : ℚ) / (1 : ℚ)) / (1/2))) = 2 := by
    norm_num [round_eq]
  exact ⟨h1, h2, by rw [h1, h2]; decide⟩

/-- C4 amended — the planner's rounding is truncation toward zero (equal
to `⌊·⌋` on these nonnegative values), not round-to-nearest: with
`adjusted = (sw/sh)/0.5`, if `adjusted > mw/mh` the pre-clamp result is
`(mw, ⌊mw/adjusted⌋)`, otherwise `(⌊mh*adjusted⌋, mh)`. -/
theorem planDimsRaw_floor_rule (sw sh mw mh : ℕ)
    (hsw : 1 ≤ sw) (hsh : 1 ≤ sh) :
    ((mw : ℚ) / (mh : ℚ) < ((sw : ℚ) / (sh : ℚ)) / (1/2) →
      planDimsRaw sw sh mw mh =
        ((mw : ℤ), ⌊(mw : ℚ) / (((sw : ℚ) / (sh : ℚ)) / (1/2))⌋)) ∧
    (((sw : ℚ) / (sh : ℚ)) / (1/2) ≤ (mw : ℚ) / (mh : ℚ) →
      planDimsRaw sw sh mw mh =
        (⌊(mh : ℚ) * (((sw : ℚ) / (sh : ℚ)) / (1/2))⌋, (mh : ℤ))) := by
  have hW : (0:ℚ) < (sw:ℚ) := by exact_mod_cast hsw
  have hH : (0:ℚ) < (sh:ℚ) := by exact_mod_cast hsh
  constructor
  · intro hc
    have hq0 : (0:ℚ) ≤ (mw:ℚ) / (((sw:ℚ) / (sh:ℚ)) / (1/2)) := by positivity
    unfold planDimsRaw
    rw [if_pos hc, goInt_of_nonneg _ hq0]
  · intro hc
    have hc' : ¬ ((mw : ℚ) / (mh : ℚ) < ((sw : ℚ) / (sh : ℚ)) / (1/2)) := not_lt.2 hc
    have hq0 : (0:ℚ) ≤ (mh:ℚ) * (((sw:ℚ) / (sh:ℚ)) / (1/2)) := by positivity
    unfold planDimsRaw
    rw [if_neg hc', goInt_of_nonneg _ hq0]

/-- Witness for C4's amended statement at `sw = 3, sh = 1, mw = 10, mh = 10`
(width-constrained branch). -/
theorem planDimsRaw_floor_rule_witness :
    planDimsRaw 3 1 10 10 = ((10 : ℤ), ⌊(10 : ℚ) / (((3 : ℚ) / (1 : ℚ)) / (1/2))⌋) :=
  (planDimsRaw_floor_rule 3 1 10 10 (by decide) (by decide)).1 (by norm_num)

/-! ## Sampling window lemmas -/

lemma sampleSizeOf_le_four (iW nW : ℕ) : sampleSizeOf iW nW ≤ 4 := by
  unfold sampleSizeOf
  split <;> omega

lemma length_offsets (h : ℕ) : (offsets h).length = 2 * h + 1 := by
  rw [offsets, List.length_map, List.length_range]

lemma windowPoints_length_le (x y nW nH iW iH : ℕ) :
    (windowPoints x y nW nH iW iH).length ≤ 25 := by
  have hs : sampleSizeOf iW nW / 2 ≤ 2 := by
    have := sampleSizeOf_le_four iW nW
    omega
  have hlen : (offsets (sampleSizeOf iW nW / 2)).length ≤ 5 := by
    rw [length_offsets]
    omega
  unfold windowPoints
  refine le_trans (List.length_filter_le _ _) ?_
  rw [List.length_flatMap]
  have hmap : ∀ (cX cY : ℤ) (dy : ℤ),
      ((offsets (sampleSizeOf iW nW / 2)).map (fun dx => (cX + dx, cY + dy))).length =
        (offsets (sampleSizeOf iW nW / 2)).length := fun _ _ _ => List.length_map _ _
  calc ((offsets (sampleSizeOf iW nW / 2)).map
          (fun dy => ((offsets (sampleSizeOf iW nW / 2)).map
            (fun dx => (goInt ((x : ℚ) * ((iW : ℚ) / (nW : ℚ))) + dx,
                        goInt ((y : ℚ) * ((iH : ℚ) / (nH : ℚ))) + dy))).length)).sum
      = ((offsets (sampleSizeOf iW nW / 2)).map
          (fun _ => (offsets (sampleSizeOf iW nW / 2)).length)).sum := by
        simp [List.length_map]
    _ = (offsets (sampleSizeOf iW nW / 2)).length *
          (offsets (sampleSizeOf iW nW / 2)).length := by
        rw [List.map_const', List.sum_replicate, smul_eq_mul]
    _ ≤ 5 * 5 := Nat.mul_le_mul hlen hlen
    _ = 25 := by norm_num

/-- C5 counterexample — the sampling window is not capped at 16 reads:
for an 8×8 source rendered on a 2×2 grid, the cell `(1,1)` has
`xScale = 4`, so `sampleSize = 4` and the loop visits offsets
`-2 .. 2` in both axes, reading 25 in-bounds source pixels. -/
theorem samplePixelArea_reads_counterexample :
    (windowPoints 1 1 2 2 8 8).length = 25 ∧
    16 < (windowPoints 1 1 2 2 8 8).length := by
  have h : (windowPoints 1 1 2 2 8 8).length = 25 := by
    norm_num [windowPoints, sampleSizeOf, sampleSizeRaw, offsets, goInt]
    decide
  exact ⟨h, by rw [h]; decide⟩

/-- C5 amended — per-cell sampling cost bound: the area-sampling step of
`samplePixelArea` reads at most 25 source pixels per output cell (the
window half-width is capped at 2, giving at most a 5×5 window). -/
theorem samplePixelArea_reads_bounded (x y nW nH iW iH : ℕ) :
    (windowPoints x y nW nH iW iH).length ≤ 25 :=
  windowPoints_length_le x y nW nH iW iH

/-! ## Window-center lemmas -/

lemma center_nonneg (c n m : ℕ) : 0 ≤ goInt ((c : ℚ) * ((m : ℚ) / (n : ℚ))) := by
  have h0 : (0:ℚ) ≤ (c : ℚ) * ((m : ℚ) / (n : ℚ)) := by positivity
  rw [goInt_of_nonneg _ h0]
  exact Int.floor_nonneg.2 h0

lemma center_lt (c n m : ℕ) (hm : 1 ≤ m) (hn : 1 ≤ n) (hc : c < n) :
    goInt ((c : ℚ) * ((m : ℚ) / (n : ℚ))) < (m : ℤ) := by
  have hN : (0:ℚ) < (n : ℚ) := by exact_mod_cast hn
  have hM : (0:ℚ) < (m : ℚ) := by exact_mod_cast hm
  have h0 : (0:ℚ) ≤ (c : ℚ) * ((m : ℚ) / (n : ℚ)) := by positivity
  rw [goInt_of_nonneg _ h0, Int.floor_lt]
  have hcn : (c : ℚ) < (n : ℚ) := by exact_mod_cast hc
  rw [← mul_div_assoc, div_lt_iff₀ hN]
  push_cast
  nlinarith

lemma zero_mem_offsets (h : ℕ) : (0 : ℤ) ∈ offsets h := by
  unfold offsets
  exact List.mem_map.2 ⟨h, List.mem_range.2 (by omega), by simp⟩

lemma center_mem_windowPoints (x y nW nH iW iH : ℕ) (hiW : 1 ≤ iW) (hiH : 1 ≤ iH)
    (hnW : 1 ≤ nW) (hnH : 1 ≤ nH) (hx : x < nW) (hy : y < nH) :
    (goInt ((x : ℚ) * ((iW : ℚ) / (nW : ℚ))), goInt ((y : ℚ) * ((iH : ℚ) / (nH : ℚ)))) ∈
      windowPoints x y nW nH iW iH := by
  unfold windowPoints
  refine List.mem_filter.2 ⟨?_, ?_⟩
  · refine List.mem_flatMap.2 ⟨0, zero_mem_offsets _, ?_⟩
    exact List.mem_map.2 ⟨0, zero_mem_offsets _, by simp⟩
  · simp only [Bool.and_eq_true, decide_eq_true_eq]
    exact ⟨⟨⟨center_nonneg x nW iW, center_lt x nW iW hiW hnW hx⟩,
      center_nonneg y nH iH⟩, center_lt y nH iH hiH hnH hy⟩

lemma windowPoints_ne_nil (x y nW nH iW iH : ℕ) (hiW : 1 ≤ iW) (hiH : 1 ≤ iH)
    (hnW : 1 ≤ nW) (hnH : 1 ≤ nH) (hx : x < nW) (hy : y < nH) :
    windowPoints x y nW nH iW iH ≠ [] :=
  List.ne_nil_of_mem (center_mem_windowPoints x y nW nH iW iH hiW hiH hnW hnH hx hy)

lemma samplePixelArea_eq_avg (img : Img) (x y nW nH : ℕ)
    (hne : windowPoints x y nW nH img.width img.height ≠ []) :
    samplePixelArea img x y nW nH =
      ((windowPoints x y nW nH img.width img.height).map
        (fun pt => pixelIntensity (img.pixel pt.1 pt.2))).sum /
      ((windowPoints x y nW nH img.width img.height).length : ℚ) := by
  unfold samplePixelArea
  rw [if_neg]
  simpa [List.isEmpty_iff] using hne

/-- C10 — for every decoded image with positive dimensions and every
in-range output cell, the mapped window center lies inside the image, the
in-bounds sample list is nonempty, and `samplePixelArea` returns the true
window average — the `sampleCount == 0` fallback (`0.5`) is unreachable. -/
theorem samplePixelArea_fallback_unreachable (img : Img) (nW nH x y : ℕ)
    (hw : 1 ≤ img.width) (hh : 1 ≤ img.height) (hnW : 1 ≤ nW) (hnH : 1 ≤ nH)
    (hx : x < nW) (hy : y < nH) :
    0 ≤ goInt ((x : ℚ) * ((img.width : ℚ) / (nW : ℚ))) ∧
    goInt ((x : ℚ) * ((img.width : ℚ) / (nW : ℚ))) < (img.width : ℤ) ∧
    0 ≤ goInt ((y : ℚ) * ((img.height : ℚ) / (nH : ℚ))) ∧
    goInt ((y : ℚ) * ((img.height : ℚ) / (nH : ℚ))) < (img.height : ℤ) ∧
    windowPoints x y nW nH img.width img.height ≠ [] ∧
    samplePixelArea img x y nW nH =
      ((windowPoints x y nW nH img.width img.height).map
        (fun pt => pixelIntensity (img.pixel pt.1 pt.2))).sum /
      ((windowPoints x y nW nH img.width img.height).length : ℚ) := by
  have hne := windowPoints_ne_nil x y nW nH img.width img.height hw hh hnW hnH hx hy
  exact ⟨center_nonneg x nW img.width, center_lt x nW img.width hw hnW hx,
    center_nonneg y nH img.height, center_lt y nH img.height hh hnH hy,
    hne, samplePixelArea_eq_avg img x y nW nH hne⟩

/-! ## Flat-image lemmas -/

lemma samplePixelArea_const (p : Pixel) (w h x y nW nH : ℕ)
    (hw : 1 ≤ w) (hh : 1 ≤ h) (hnW : 1 ≤ nW) (hnH : 1 ≤ nH)
    (hx : x < nW) (hy : y < nH) :
    samplePixelArea (constImg p w h) x y nW nH = pixelIntensity p := by
  have hne := windowPoints_ne_nil x y nW nH w h hw hh hnW hnH hx hy
  rw [samplePixelArea_eq_avg (constImg p w h) x y nW nH hne]
  simp only [constImg]
  rw [List.map_const', List.sum_replicate, nsmul_eq_mul]
  have hlen : ((windowPoints x y nW nH w h).length : ℚ) ≠ 0 := by
    have := List.length_pos.2 hne
    exact Nat.cast_ne_zero.2 (by omega)
  exact mul_div_cancel_left₀ _ hlen

lemma calculateEdgeEnhancement_const (p : Pixel) (w h x y nW nH : ℕ) :
    calculateEdgeEnhancement (constImg p w h) x y nW nH = 0 := by
  simp only [calculateEdgeEnhancement, constImg]
  norm_num

lemma cellFinalIntensity_const (p : Pixel) (w h x y nW nH : ℕ)
    (hw : 1 ≤ w) (hh : 1 ≤ h) (hnW : 1 ≤ nW) (hnH : 1 ≤ nH)
    (hx : x < nW) (hy : y < nH) :
    cellFinalIntensity (constImg p w h) x y nW nH =
      enhanceContrast
        (if (if 1 < pixelIntensity p then 1 else pixelIntensity p) < 0 then 0
         else (if 1 < pixelIntensity p then 1 else pixelIntensity p)) := by
  simp only [cellFinalIntensity]
  rw [samplePixelArea_const p w h x y nW nH hw hh hnW hnH hx hy,
      calculateEdgeEnhancement_const p w h x y nW nH]
  norm_num

/-- C7 — flat-image uniformity: rendering a uniformly colored image with
the planned geometry maps every cell of the grid to the same tone-ramp
index (the edge contribution vanishes and the area average is the
constant intensity at every cell). -/
theorem flat_image_uniform (p : Pixel) (w h mw mh x1 y1 x2 y2 : ℕ)
    (hw : 1 ≤ w) (hh : 1 ≤ h) (hmw : 1 ≤ mw) (hmh : 1 ≤ mh)
    (hx1 : x1 < (planDims w h mw mh).1) (hy1 : y1 < (planDims w h mw mh).2)
    (hx2 : x2 < (planDims w h mw mh).1) (hy2 : y2 < (planDims w h mw mh).2) :
    cellIndex (constImg p w h) x1 y1 (planDims w h mw mh).1 (planDims w h mw mh).2 =
    cellIndex (constImg p w h) x2 y2 (planDims w h mw mh).1 (planDims w h mw mh).2 := by
  obtain ⟨h1, _, h3, _⟩ := planDims_bounds w h mw mh hw hh hmw hmh
  unfold cellIndex
  rw [cellFinalIntensity_const p w h x1 y1 _ _ hw hh h1 h3 hx1 hy1,
      cellFinalIntensity_const p w h x2 y2 _ _ hw hh h1 h3 hx2 hy2]

/-! ## Tone mapper bugs -/

/-- C1 — `enhanceContrast` does not compute the documented sigmoid
`1/(1+e^(-6(x-0.5)))`: the source multiplies the constant `e` by the
exponent instead of exponentiating.  At `x = 0.5` the code returns `1`
where the sigmoid is `1/2`, and at `x = 0.6` the code's value is negative
(the sigmoid is always in `(0,1)`). -/
theorem enhanceContrast_not_sigmoid :
    enhanceContrast (1/2) = 1 ∧ enhanceContrast (3/5) < 0 ∧
    specSigmoid (1/2) = 1/2 := by
  refine ⟨by norm_num [enhanceContrast, eConst],
    by norm_num [enhanceContrast, eConst], ?_⟩
  unfold specSigmoid
  norm_num [Real.exp_zero]

/-- C2 — the quantization step does not emit ramp glyphs for dark cells:
a final intensity of `0` quantizes to index `0`, but `asciiChars[0]` is
the BYTE `0xE2` (the first of the three UTF-8 bytes of `█`), so
`rune(asciiChars[0])` is U+00E2, which is none of the ramp's 14 glyphs —
in particular it is not the densest glyph `█` (U+2588). -/
theorem quantize_dark_not_ramp_glyph :
    quantizeIndex 0 = 0 ∧ emittedChar 0 = 0xE2 ∧
    ¬ (0xE2 ∈ rampGlyphs) ∧ rampGlyphs.getD 0 0 = 0x2588 := by
  have h0 : quantizeIndex 0 = 0 := by
    norm_num [quantizeIndex, goInt]
  refine ⟨h0, ?_, by decide, by decide⟩
  unfold emittedChar
  rw [h0]
  decide

/-! ## Gradient monotonicity failure -/

/-- C6 — tone-direction monotonicity fails: rendering the 16×2
black-to-white gradient with bounds 16×2 plans a 16×1 grid, and in its
single row the chosen ramp index DROPS from 15 at cell `x = 8` to 12 at
the adjacent cell `x = 9` (a consequence of the corrupted contrast
curve), so the index sequence is not non-decreasing left to right. -/
theorem gradient_index_not_monotone :
    planDims 16 2 16 2 = (16, 1) ∧
    cellIndex gradImg 8 0 16 1 = 15 ∧
    cellIndex gradImg 9 0 16 1 = 12 ∧
    cellIndex gradImg 9 0 16 1 < cellIndex gradImg 8 0 16 1 := by
  have hplan : planDims 16 2 16 2 = (16, 1) := by
    norm_num [planDims, planDimsRaw, goInt]
    decide
  have h8 : cellIndex gradImg 8 0 16 1 = 15 := by
    norm_num [cellIndex, cellFinalIntensity, samplePixelArea, windowPoints, sampleSizeOf,
      sampleSizeRaw, offsets, List.range_succ, calculateEdgeEnhancement, clampCoord,
      gradImg, pixelIntensity, pixelGrayNorm, compositedGray, goInt,
      enhanceContrast, eConst, quantizeIndex]
    simp
  have h9 : cellIndex gradImg 9 0 16 1 = 12 := by
    norm_num [cellIndex, cellFinalIntensity, samplePixelArea, windowPoints, sampleSizeOf,
      sampleSizeRaw, offsets, List.range_succ, calculateEdgeEnhancement, clampCoord,
      gradImg, pixelIntensity, pixelGrayNorm, compositedGray, goInt,
      enhanceContrast, eConst, quantizeIndex]
    simp
  exact ⟨hplan, h8, h9, by rw [h8, h9]; decide⟩

lemma planDims_2_2_10_10 : planDims 2 2 10 10 = (10, 5) := by
  norm_num [planDims, planDimsRaw, goInt]
  decide

/-- Witness for C7: a 2×2 mid-gray image rendered into the planned
10×5 grid gives the same ramp index at opposite grid corners. -/
theorem flat_image_uniform_witness :
    cellIndex (constImg grayPixel 2 2) 0 0 (planDims 2 2 10 10).1 (planDims 2 2 10 10).2 =
    cellIndex (constImg grayPixel 2 2) 9 4 (planDims 2 2 10 10).1 (planDims 2 2 10 10).2 :=
  flat_image_uniform grayPixel 2 2 10 10 0 0 9 4 (by decide) (by decide) (by decide)
    (by decide)
    (by rw [planDims_2_2_10_10]; decide) (by rw [planDims_2_2_10_10]; decide)
    (by rw [planDims_2_2_10_10]; decide) (by rw [planDims_2_2_10_10]; decide)

/-- Witness for C10 on a 4×4 image rendered to a 2×2 grid at cell `(1,0)`. -/
theorem samplePixelArea_fallback_unreachable_witness :
    0 ≤ goInt ((1 : ℚ) * ((blackImg4.width : ℚ) / (2 : ℚ))) ∧
    goInt ((1 : ℚ) * ((blackImg4.width : ℚ) / (2 : ℚ))) < (blackImg4.width : ℤ) ∧
    0 ≤ goInt ((0 : ℚ) * ((blackImg4.height : ℚ) / (2 : ℚ))) ∧
    goInt ((0 : ℚ) * ((blackImg4.height : ℚ) / (2 : ℚ))) < (blackImg4.height : ℤ) ∧
    windowPoints 1 0 2 2 blackImg4.width blackImg4.height ≠ [] ∧
    samplePixelArea blackImg4 1 0 2 2 =
      ((windowPoints 1 0 2 2 blackImg4.width blackImg4.height).map
        (fun pt => pixelIntensity (blackImg4.pixel pt.1 pt.2))).sum /
      ((windowPoints 1 0 2 2 blackImg4.width blackImg4.height).length : ℚ) :=
  samplePixelArea_fallback_unreachable blackImg4 2 2 1 0 (by decide) (by decide)
    (by decide) (by decide) (by decide) (by decide)

/-! ## Sniffer and entry-point behavior -/

/-- C8 counterexample — a buffer shorter than 2 bytes is NOT always
rejected by the classification the entry point uses: an empty buffer with
filename `a.png` is accepted through the suffix signal. -/
theorem sniffer_short_buffer_counterexample :
    ([] : List ℕ).length < 2 ∧ classify [] "a.png".toList = true := by
  refine ⟨by decide, ?_⟩
  decide

/-- C8 amended — only the magic-byte signal rejects all buffers shorter
than 2 bytes: `isImageData` is false on them, and the combined
classification is false exactly when the filename suffix signal also
fails. -/
theorem short_buffer_magic_rejection (data : List ℕ) (filename : List Char)
    (hlen : data.length < 2) :
    isImageData data = false ∧
    (isImageFile filename = false → classify data filename = false) := by
  have h1 : isImageData data = false := by
    unfold isImageData
    rw [if_pos hlen]
  refine ⟨h1, fun h2 => ?_⟩
  unfold classify
  rw [h1, h2]
  rfl

/-- Witness for C8's amended statement: the 1-byte buffer `[0xFF]` with a
non-image filename. -/
theorem short_buffer_magic_rejection_witness :
    ([255] : List ℕ).length < 2 ∧ isImageData [255] = false ∧
    (isImageFile "doc.txt".toList = false → classify [255] "doc.txt".toList = false) :=
  ⟨by decide,
   (short_buffer_magic_rejection [255] "doc.txt".toList (by decide)).1,
   (short_buffer_magic_rejection [255] "doc.txt".toList (by decide)).2⟩

/-- C9 — entry-point error behavior: when both sniffing signals reject,
`convertToASCIIArt` returns `("", false)` for EVERY decode function (so
no decode is consulted); when the sniffer accepts but decoding fails with
message `e`, it returns the wrapped non-empty diagnostic
`Error converting image to ASCII: failed to decode image: <e>` with
`false`. -/
theorem convert_entry_error_behavior :
    (∀ (decode : List ℕ → Except String (Img × String)) (data : List ℕ)
        (filename : List Char) (tw th : ℤ),
        isImageFile filename = false → isImageData data = false →
        convertToASCIIArt decode data filename tw th = ("", false)) ∧
    (∀ (decode : List ℕ → Except String (Img × String)) (data : List ℕ)
        (filename : List Char) (tw th : ℤ) (e : String),
        classify data filename = true → decode data = Except.error e →
        (convertToASCIIArt decode data filename tw th).1 =
          "Error converting image to ASCII: " ++ ("failed to decode image: " ++ e) ∧
        (convertToASCIIArt decode data filename tw th).2 = false ∧
        (convertToASCIIArt decode data filename tw th).1 ≠ "") := by
  constructor
  · intro decode data filename tw th h1 h2
    simp [convertToASCIIArt, h1, h2]
  · intro decode data filename tw th e hclass hdec
    have hcond : (!(isImageFile filename) && !(isImageData data)) = false := by
      have : (isImageFile filename || isImageData data) = true := hclass
      rw [← Bool.not_or, this]
      rfl
    have hres : convertToASCIIArt decode data filename tw th =
        ("Error converting image to ASCII: " ++ ("failed to decode image: " ++ e), false) := by
      simp only [convertToASCIIArt, hcond, Bool.false_eq_true, if_false,
        convertImageToASCII, hdec]
    refine ⟨by rw [hres], by rw [hres], ?_⟩
    rw [hres]
    intro hcontra
    have hlen := congrArg String.length hcontra
    rw [String.length_append] at hlen
    have h1 : 0 < ("Error converting image to ASCII: ").length := by decide
    have h2 : ("" : String).length = 0 := by decide
    omega
  

/-- Witness for C9: a non-image buffer and name give `("", false)`; a
buffer with the JPEG signature `FF D8` whose decode fails yields the
wrapped diagnostic and `false`. -/
theorem convert_entry_error_behavior_witness :
    convertToASCIIArt decodeFailStub [0] "notes.txt".toList 80 24 = ("", false) ∧
    (convertToASCIIArt decodeFailStub [255, 216] "photo.bin".toList 80 24).1 =
      "Error converting image to ASCII: " ++ ("failed to decode image: " ++ "unexpected EOF") ∧
    (convertToASCIIArt decodeFailStub [255, 216] "photo.bin".toList 80 24).2 = false :=
  ⟨convert_entry_error_behavior.1 decodeFailStub [0] "notes.txt".toList 80 24
      (by decide) (by decide),
   (convert_entry_error_behavior.2 decodeFailStub [255, 216] "photo.bin".toList 80 24
      "unexpected EOF" (by decide) rfl).1,
   (convert_entry_error_behavior.2 decodeFailStub [255, 216] "photo.bin".toList 80 24
      "unexpected EOF" (by decide) rfl).2.1⟩

end LS3
